import Mathlib

/-!
Shallow embedding of `nengo/utils/numpy.py` (array utility functions) and
proofs of the specified properties.

The module under verification is a collection of free functions over dense
N-dimensional numeric arrays: `compare`, `as_shape`, `array`, `array_hash`,
`rms`, `rmse`, `rfftfreq`.  Arrays are modelled as a shape (list of axis
lengths), a flat row-major data list, and a writeable flag.  Python
exceptions are modelled with an explicit error type and `Except`.
-/

namespace Nengo

/-- Python exception classes raised by the module: `ValueError`,
`TypeError`, and nengo's `ValidationError` (which carries the name of the
offending attribute). -/
inductive PyError where
  | valueError (msg : String)
  | typeError (msg : String)
  | validationError (msg : String) (attr : String)
  deriving DecidableEq, Repr

/-- A dense N-dimensional array: shape, flat data in row-major order, and
the numpy writeable flag (`a.flags.writeable`). -/
structure NDArray (α : Type) where
  shape : List Nat
  data : List α
  writeable : Bool := true
  deriving DecidableEq, Repr

/-- Number of dimensions, `a.ndim` in numpy. -/
def NDArray.ndim (a : NDArray α) : Nat := a.shape.length

/-- Total element count, `a.size` in numpy (product of the axis lengths). -/
def NDArray.size (a : NDArray α) : Nat := a.shape.prod

/-- Row-major flat index of a multi-index `idx` in an array of shape
`shape`. -/
def flatIndex (shape idx : List Nat) : Nat :=
  (shape.zip idx).foldl (fun acc p => acc * p.1 + p.2) 0

/-- Element lookup at a multi-index (out-of-range indices give the default
element; all uses in the claims stay in range). -/
def NDArray.get [Inhabited α] (a : NDArray α) (idx : List Nat) : α :=
  a.data.getD (flatIndex a.shape idx) default

/-- Inputs of `as_shape`: Python values as the function's duck typing sees
them.  Modelled from the spec: the type dispatch uses `is_iterable` and
`is_integer` from `nengo.utils.compat`, which is not part of the sources
here; the spec describes the three cases (iterable, single integer,
anything else), so the input is a tagged union of exactly those cases.
`other` carries the `repr` string of the value, used in the error
message (`"%r cannot be safely converted to a shape" % x`). -/
inductive ShapeInput where
  | iter (xs : List Int)
  | int (n : Int)
  | other (r : String)
  deriving DecidableEq, Repr

/-- Embedding of `as_shape(x, min_dim=0)`: a tuple if `x` is iterable,
`(x,)` if `x` is an integer, otherwise `ValueError`; left-pad with 1s up
to `min_dim` entries. -/
def as_shape (x : ShapeInput) (min_dim : Nat := 0) : Except PyError (List Int) :=
  match x with
  | .iter xs => .ok (leftPad min_dim xs)
  | .int n => .ok (leftPad min_dim [n])
  | .other r => .error (.valueError (r ++ " cannot be safely converted to a shape"))
where
  /-- The padding step of `as_shape`: if `len(shape) < min_dim`, prepend
  `min_dim - len(shape)` ones. -/
  leftPad (min_dim : Nat) (shape : List Int) : List Int :=
    if shape.length < min_dim then
      List.replicate (min_dim - shape.length) 1 ++ shape
    else shape

/-- Boolean substring test on character lists: does `needle` occur
contiguously inside `haystack`?  Used to reason about error-message
wording. -/
def containsSeq (needle : List Char) : List Char → Bool
  | [] => needle.isEmpty
  | c :: rest => needle.isPrefixOf (c :: rest) || containsSeq needle rest

/-- Embedding of `array(x, dims=None, min_dims=0, readonly=False)`.  The
input `x` is taken after `np.array(x, **kwargs)` conversion (the
conversion itself belongs to numpy).  If `dims` is `none` it becomes
`max(min_dims, y.ndim)`; a shape with fewer axes than `dims` is
right-padded with trailing 1s by an in-place reshape (data untouched); a
shape with more axes raises `ValidationError(attr='dims')`; `readonly`
clears the writeable flag of the result. -/
def array (x : NDArray α) (dims : Option Nat) (min_dims : Nat := 0)
    (readonly : Bool := false) : Except PyError (NDArray α) :=
  let d := match dims with
    | none => max min_dims x.ndim
    | some d => d
  if x.ndim < d then
    let y : NDArray α :=
      { shape := x.shape ++ List.replicate (d - x.ndim) 1, data := x.data,
        writeable := x.writeable }
    .ok (if readonly then { y with writeable := false } else y)
  else if x.ndim > d then
    .error (.validationError
      ("Input cannot be cast to array with " ++ toString d ++ " dimensions")
      "dims")
  else
    .ok (if readonly then { x with writeable := false } else x)

/-- Inputs of `array_hash`: either a numpy array (with `Int` elements
standing for one fixed dtype's values) or any other Python value,
represented by the integer that Python's builtin `hash` returns for it. -/
inductive PyVal where
  | ndarray (a : NDArray Int)
  | pyobj (h : Int)
  deriving DecidableEq, Repr

/-- Model of Python's `hash` applied to the raw bytes of a flat data
buffer (`v.data.tobytes()`): a deterministic digest of the element list.
The exact mixing constants are a model; only determinism and dependence
on exactly the listed elements matter for the claims. -/
def hashBytes (data : List Int) : Int :=
  data.foldl (fun h x => h * 1000003 + x) 5381

/-- Model of `np.random.RandomState(seed)`: draw number `k` of the stream
for this seed, reduced into `[0, bound)`.  Modelled as a deterministic
congruential mix of `seed` and `k`; numpy's Mersenne Twister is likewise
a pure function of the seed and the draw position, which is all the
claims use. -/
def randStateDraw (seed k bound : Nat) : Nat :=
  ((seed + 1) * 6364136223846793005 + k * 1442695040888963407) % 2 ^ 64 % bound

/-- The index arrays of `array_hash`'s sampling branch:
`inds = [rng.randint(0, a.shape[i], size=n) for i in range(a.ndim)]` with
`rng = np.random.RandomState(a.size)`.  Axis `i` consumes draws
`i*n .. i*n+n-1` of the stream seeded by `size`. -/
def sampleInds (size : Nat) (shape : List Nat) (n : Nat) : List (List Nat) :=
  (List.range shape.length).map fun i =>
    (List.range n).map fun j => randStateDraw size (i * n + j) (shape.getD i 0)

/-- Fancy indexing `a[inds]` with `ndim` index arrays of common length
`n`: a fresh 1-D array (a copy, not a view) whose `j`-th element is
`a[inds[0][j], ..., inds[ndim-1][j]]`. -/
def fancyIndex (a : NDArray Int) (inds : List (List Nat)) (n : Nat) : NDArray Int :=
  { shape := [n],
    data := (List.range n).map fun j => a.get (inds.map fun col => col.getD j 0),
    writeable := true }

/-- A numpy view `a.view()`: same shape and data, its own flags. -/
def ndview (a : NDArray α) : NDArray α :=
  { shape := a.shape, data := a.data, writeable := a.writeable }

/-- `v.setflags(write=w)`: updates the writeable flag of `v` only. -/
def setflags (v : NDArray α) (w : Bool) : NDArray α :=
  { v with writeable := w }

/-- Embedding of `array_hash(a, n=100)`.  Returns the hash together with
the state of the argument after the call (the source mutates flags only
on a fresh view or on the fancy-indexing copy, never on `a`, and the
result records that).  Non-arrays get Python's generic hash.  Arrays
with fewer than `n` elements are hashed over all their bytes; larger
ones over a sample of `n` indices per axis drawn from
`RandomState(a.size)`. -/
def array_hash (x : PyVal) (n : Nat := 100) : Int × PyVal :=
  match x with
  | .pyobj h => (h, .pyobj h)
  | .ndarray a =>
    if a.size < n then
      let v := setflags (ndview a) false
      (hashBytes v.data, .ndarray a)
    else
      let v := setflags (fancyIndex a (sampleInds a.size a.shape n) n) false
      (hashBytes v.data, .ndarray a)

/-- Python values as `compare` sees them: rational numbers plus a
NaN-like value for which every comparison (`==`, `>`, `<`) is false, as
for IEEE NaN in Python. -/
inductive PyNum where
  | num (q : ℚ)
  | nan
  deriving DecidableEq, Repr

/-- Python `a == b` on `PyNum`. -/
def PyNum.eqb : PyNum → PyNum → Bool
  | .num p, .num q => p = q
  | _, _ => false

/-- Python `a > b` on `PyNum`. -/
def PyNum.gtb : PyNum → PyNum → Bool
  | .num p, .num q => q < p
  | _, _ => false

/-- Python `a < b` on `PyNum`. -/
def PyNum.ltb : PyNum → PyNum → Bool
  | .num p, .num q => p < q
  | _, _ => false

/-- Embedding of
`compare(a, b) = 0 if a == b else 1 if a > b else -1 if a < b else None`. -/
def compare (a b : PyNum) : Option Int :=
  if a.eqb b then some 0
  else if a.gtb b then some 1
  else if a.ltb b then some (-1)
  else none

/-- Model of `np.fft.fftfreq(n, d)`: the signed FFT sample-frequency
axis, `[0, 1, ..., (n-1)//2, -(n//2), ..., -1] / (d*n)` as exact
rationals.  Entry `k` is `k/(d*n)` for `k <= (n-1)//2` and `(k-n)/(d*n)`
otherwise. -/
def fftfreq (n : Nat) (d : ℚ) : List ℚ :=
  (List.range n).map fun k =>
    (if k ≤ (n - 1) / 2 then (k : ℚ) else (k : ℚ) - (n : ℚ)) / (d * n)

/-- Embedding of the `rfftfreq` polyfill,
`np.abs(np.fft.fftfreq(n=n, d=d)[:n // 2 + 1])`. -/
def rfftfreq (n : Nat) (d : ℚ := 1) : List ℚ :=
  ((fftfreq n d).take (n / 2 + 1)).map (fun v => |v|)

/-- Numpy broadcasting of two shapes, on right-aligned (reversed) axis
lists: axes must agree or one of them be 1. -/
def bcastRev : List Nat → List Nat → Option (List Nat)
  | [], ys => some ys
  | x :: xs, [] => some (x :: xs)
  | x :: xs, y :: ys =>
    match bcastRev xs ys with
    | none => none
    | some zs => if x = y ∨ x = 1 ∨ y = 1 then some (max x y :: zs) else none

/-- The broadcast result shape of two shapes, `none` if incompatible. -/
def broadcastShapes (s t : List Nat) : Option (List Nat) :=
  (bcastRev s.reverse t.reverse).map List.reverse

/-- All multi-indices of a shape in row-major order (last axis varies
fastest). -/
def allIndices : List Nat → List (List Nat)
  | [] => [[]]
  | d :: ds => ((List.range d).map fun i => (allIndices ds).map fun idx => i :: idx).flatten

/-- Broadcast-aware element lookup: `idx` indexes the broadcast result
shape; leading extra axes are dropped and axes of length 1 read index 0. -/
def bget (a : NDArray ℚ) (idx : List Nat) : ℚ :=
  let idx2 := idx.drop (idx.length - a.shape.length)
  a.get ((a.shape.zip idx2).map fun p => if p.1 = 1 then 0 else p.2)

/-- Elementwise subtraction `x - y` with numpy broadcasting; raises the
broadcast-incompatibility error when the shapes do not broadcast. -/
def nsub (x y : NDArray ℚ) : Except PyError (NDArray ℚ) :=
  match broadcastShapes x.shape y.shape with
  | none => .error (.valueError "operands could not be broadcast together")
  | some s =>
    .ok { shape := s, data := (allIndices s).map fun idx => bget x idx - bget y idx,
          writeable := true }

/-- Elementwise square `x**2`. -/
def npSquare (x : NDArray ℚ) : NDArray ℚ :=
  { x with data := x.data.map fun v => v * v }

/-- Model of `np.mean(x, axis=axis, keepdims=keepdims)`: `axis = none`
averages every element into one value (shape `()`, or all-1s with
`keepdims`); `axis = some axes` averages over the listed axes, which are
kept as length-1 axes when `keepdims` is true and removed otherwise. -/
def npMean (x : NDArray ℚ) (axis : Option (List Nat)) (keepdims : Bool) : NDArray ℚ :=
  match axis with
  | none =>
    let m := ((allIndices x.shape).map x.get).sum / (x.size : ℚ)
    { shape := if keepdims then List.replicate x.ndim 1 else [], data := [m],
      writeable := true }
  | some axes =>
    let kshape := x.shape.enum.map fun p => if axes.contains p.1 then 1 else p.2
    let count : ℚ := (((x.shape.enum.filter fun p => axes.contains p.1).map Prod.snd).prod : ℕ)
    let data := (allIndices kshape).map fun ridx =>
      (((allIndices x.shape).filter fun fidx =>
          (List.range x.ndim).all fun i =>
            axes.contains i || decide (fidx.getD i 0 = ridx.getD i 0)).map x.get).sum
        / count
    { shape := if keepdims then kshape
               else (x.shape.enum.filter fun p => !axes.contains p.1).map Prod.snd,
      data := data, writeable := true }

/-- Elementwise `np.sqrt` into exact reals. -/
noncomputable def npSqrtArr (x : NDArray ℚ) : NDArray ℝ :=
  { shape := x.shape, data := x.data.map fun v => Real.sqrt (v : ℝ),
    writeable := x.writeable }

/-- Embedding of `rms(x, axis=None, keepdims=False)`:
`np.sqrt(np.mean(x**2, axis=axis, keepdims=keepdims))`. -/
noncomputable def rms (x : NDArray ℚ) (axis : Option (List Nat) := none)
    (keepdims : Bool := false) : NDArray ℝ :=
  npSqrtArr (npMean (npSquare x) axis keepdims)

/-- Embedding of `rmse(x, y, axis=None, keepdims=False)`:
`rms(x - y, axis=axis, keepdims=keepdims)`, the subtraction's broadcast
error propagating unchanged. -/
noncomputable def rmse (x y : NDArray ℚ) (axis : Option (List Nat) := none)
    (keepdims : Bool := false) : Except PyError (NDArray ℝ) :=
  (nsub x y).map fun z => rms z axis keepdims

/-! ## Theorems for the claims -/

/-- Claim C1: with `dims` unspecified, `array` uses
`dims = max(min_dims, x.ndim)`; when the input has fewer axes than `dims`
the result's shape is the input's shape right-padded with trailing 1s to
exactly `dims` axes, element values and flat order unchanged; in
particular `array([1,2,3], dims=2)` has shape `(3,1)`. -/
theorem array_right_pads_trailing_ones :
    (∀ (x : NDArray Int) (m : Nat), array x none m false =
      .ok { shape := x.shape ++ List.replicate (max m x.ndim - x.ndim) 1,
            data := x.data, writeable := x.writeable }) ∧
    (∀ (x : NDArray Int) (d m : Nat), x.ndim < d → array x (some d) m false =
      .ok { shape := x.shape ++ List.replicate (d - x.ndim) 1,
            data := x.data, writeable := x.writeable }) ∧
    array (α := Int) ⟨[3], [1, 2, 3], true⟩ (some 2) 0 false =
      .ok ⟨[3, 1], [1, 2, 3], true⟩ := by
  refine ⟨?_, ?_, rfl⟩
  · intro x m
    by_cases h : x.ndim < max m x.ndim
    · simp [array, h]
    · have hd : max m x.ndim = x.ndim := by omega
      have h2 : ¬ x.ndim > max m x.ndim := by omega
      simp [array, h, h2, hd]
  · intro x d m h
    simp [array, h]

/-- Witness for C1 at a concrete input: a 1-axis array padded to 3 axes. -/
theorem array_right_pads_trailing_ones_witness :
    array (α := Int) ⟨[2], [5, 6], true⟩ (some 3) 0 false =
      .ok ⟨[2, 1, 1], [5, 6], true⟩ := by
  simpa using array_right_pads_trailing_ones.2.1 ⟨[2], [5, 6], true⟩ 3 0 (by decide)

/-- Claim C2: when the input's dimensionality exceeds the requested
`dims`, `array` fails with a `ValidationError` whose `attr` is `"dims"`
and returns no array. -/
theorem array_excess_ndim_validation_error :
    ∀ (x : NDArray Int) (d m : Nat) (ro : Bool), d < x.ndim →
      array x (some d) m ro =
        .error (.validationError
          ("Input cannot be cast to array with " ++ toString d ++ " dimensions")
          "dims") := by
  intro x d m ro h
  have h1 : ¬ x.ndim < d := by omega
  simp [array, h1, h]

/-- Witness for C2: a 2-axis array requested as 1-axis errors with
attribute `dims`. -/
theorem array_excess_ndim_validation_error_witness :
    array (α := Int) ⟨[2, 2], [1, 2, 3, 4], true⟩ (some 1) 0 false =
      .error (.validationError
        ("Input cannot be cast to array with " ++ toString 1 ++ " dimensions")
        "dims") :=
  array_excess_ndim_validation_error ⟨[2, 2], [1, 2, 3, 4], true⟩ 1 0 false (by decide)

/-- Claim C9: with `dims` unspecified, `array` never raises the
dimensionality `ValidationError`: `dims` becomes `max(min_dims, x.ndim)`,
which is at least `x.ndim`, so the error branch is unreachable. -/
theorem array_default_dims_never_errors :
    ∀ (x : NDArray Int) (m : Nat) (ro : Bool), ∃ y, array x none m ro = .ok y := by
  intro x m ro
  have h2 : ¬ x.ndim > max m x.ndim := by omega
  by_cases h : x.ndim < max m x.ndim <;> cases ro <;> simp [array, h, h2]

/-- Claim C3: `as_shape` turns an iterable into the tuple of its entries
and an integer into a one-element shape, left-padding with 1s to
`min_dim` entries; `as_shape([2,3]) == (2,3)`, `as_shape(5) == (5,)`,
`as_shape(5, min_dim=3) == (1,1,5)`. -/
theorem as_shape_tuple_int_left_pad :
    (∀ (xs : List Int) (m : Nat),
      as_shape (.iter xs) m = .ok (List.replicate (m - xs.length) 1 ++ xs) ∧
      (List.replicate (m - xs.length) 1 ++ xs).length = max m xs.length) ∧
    (∀ (n : Int) (m : Nat),
      as_shape (.int n) m = .ok (List.replicate (m - 1) 1 ++ [n])) ∧
    as_shape (.iter [2, 3]) = .ok [2, 3] ∧
    as_shape (.int 5) = .ok [5] ∧
    as_shape (.int 5) 3 = .ok [1, 1, 5] := by
  refine ⟨?_, ?_, rfl, rfl, rfl⟩
  · intro xs m
    constructor
    · by_cases h : xs.length < m
      · simp [as_shape, as_shape.leftPad, h]
      · have hm : m - xs.length = 0 := by omega
        simp [as_shape, as_shape.leftPad, h, hm]
    · simp; omega
  · intro n m
    by_cases h : (1 : Nat) < m
    · simp [as_shape, as_shape.leftPad, h]
    · have hm : m - 1 = 0 := by omega
      have h1 : ¬ ([n].length < m) := by simp; omega
      simp [as_shape, as_shape.leftPad, h1, hm]

/-- Counterexample to claim C4: on a non-iterable, non-integer input the
code raises `ValueError` (not a `TypeError`-class error), and its message
reads "cannot be safely converted to a shape", which does not contain the
claimed wording "cannot be converted to a shape". -/
theorem as_shape_typeerror_claim_cex :
    as_shape (.other "1.5") 0 =
      .error (.valueError "1.5 cannot be safely converted to a shape") ∧
    (¬ ∃ msg, as_shape (.other "1.5") 0 = .error (.typeError msg)) ∧
    containsSeq "cannot be converted to a shape".data
      "1.5 cannot be safely converted to a shape".data = false := by
  refine ⟨rfl, ?_, by decide⟩
  rintro ⟨msg, h⟩
  simp [as_shape] at h

/-- Helper: a substring of a list stays a substring after prepending. -/
theorem containsSeq_append_left (nd pre hs : List Char)
    (h : containsSeq nd hs = true) : containsSeq nd (pre ++ hs) = true := by
  induction pre with
  | nil => simpa using h
  | cons c rest ih => simp [containsSeq, ih]

/-- Claim C4 (amended): for every input neither iterable nor
integer-like, `as_shape` fails with a `ValueError` whose message contains
"cannot be safely converted to a shape". -/
theorem as_shape_valueerror_message :
    ∀ (r : String) (m : Nat), ∃ msg,
      as_shape (.other r) m = .error (.valueError msg) ∧
      containsSeq "cannot be safely converted to a shape".data msg.data = true := by
  intro r m
  refine ⟨r ++ " cannot be safely converted to a shape", rfl, ?_⟩
  have hdata : (r ++ " cannot be safely converted to a shape").data =
      r.data ++ " cannot be safely converted to a shape".data := rfl
  rw [hdata]
  exact containsSeq_append_left _ _ _ (by decide)

/-- Claim C5: `array_hash` is deterministic — equal shape and element
values give equal hashes (the writeable flag is irrelevant); below the
threshold `n` the hash is of the raw bytes of the whole contents, at or
above it the hash is of `n` indices per axis sampled with seed
`a.size`, so equal shapes sample equal indices. -/
theorem array_hash_deterministic_and_sampled :
    (∀ (a b : NDArray Int) (n : Nat), a.shape = b.shape → a.data = b.data →
      (array_hash (.ndarray a) n).1 = (array_hash (.ndarray b) n).1) ∧
    (∀ (a : NDArray Int) (n : Nat), a.size < n →
      (array_hash (.ndarray a) n).1 = hashBytes a.data) ∧
    (∀ (a : NDArray Int) (n : Nat), n ≤ a.size →
      (array_hash (.ndarray a) n).1 =
        hashBytes (fancyIndex a (sampleInds a.size a.shape n) n).data) ∧
    (∀ (a b : NDArray Int) (n : Nat), a.shape = b.shape →
      sampleInds a.size a.shape n = sampleInds b.size b.shape n) := by
  refine ⟨?_, ?_, ?_, ?_⟩
  · rintro ⟨s, d, w⟩ ⟨s', d', w'⟩ n hs hd
    simp only [NDArray.shape] at hs
    simp only [NDArray.data] at hd
    subst hs; subst hd
    by_cases h : (⟨s, d, w⟩ : NDArray Int).size < n
    · have h' : (⟨s, d, w'⟩ : NDArray Int).size < n := h
      simp [array_hash, h, h', ndview, setflags]
    · have h' : ¬ s.prod < n := h
      simp [array_hash, h', ndview, setflags, fancyIndex, NDArray.get,
        NDArray.size]
  · intro a n h
    simp [array_hash, h, ndview, setflags]
  · intro a n h
    have h' : ¬ a.size < n := by omega
    simp [array_hash, h', ndview, setflags]
  · rintro ⟨s, d, w⟩ ⟨s', d', w'⟩ n hs
    simp only [NDArray.shape] at hs
    subst hs
    rfl

/-- Witness for C5: two small arrays equal except for the writeable flag
hash identically, and a large array's hash is that of the sampled
sub-array. -/
theorem array_hash_deterministic_witness :
    (array_hash (.ndarray ⟨[2], [7, 8], true⟩) 100).1 =
      (array_hash (.ndarray ⟨[2], [7, 8], false⟩) 100).1 ∧
    (array_hash (.ndarray ⟨[3], [1, 2, 3], true⟩) 2).1 =
      hashBytes (fancyIndex ⟨[3], [1, 2, 3], true⟩
        (sampleInds 3 [3] 2) 2).data :=
  ⟨array_hash_deterministic_and_sampled.1 ⟨[2], [7, 8], true⟩ ⟨[2], [7, 8], false⟩
      100 rfl rfl,
   array_hash_deterministic_and_sampled.2.2.1 ⟨[3], [1, 2, 3], true⟩ 2 (by decide)⟩

/-- Claim C10: `array_hash` never mutates its argument: the array's
shape, element values and writeable flag are unchanged after the call;
the read-only flag is cleared only on the freshly created view (or
fancy-indexing copy) that gets hashed, never on the argument. -/
theorem array_hash_preserves_argument :
    (∀ (a : NDArray Int) (n : Nat), (array_hash (.ndarray a) n).2 = .ndarray a) ∧
    (∀ a : NDArray Int, (setflags (ndview a) false).writeable = false ∧
      (setflags (ndview a) false).data = a.data ∧
      (ndview a).writeable = a.writeable) := by
  refine ⟨?_, fun a => ⟨rfl, rfl, rfl⟩⟩
  intro a n
  by_cases h : a.size < n <;> simp [array_hash, h]

/-- Claim C6: `rmse` is exactly `rms` of the elementwise difference
(difference first, then root-mean-square), and
`rmse([1,2,3],[1,2,3]) == 0.0`. -/
theorem rmse_is_rms_of_difference :
    (∀ (x y : NDArray ℚ) (axis : Option (List Nat)) (keepdims : Bool)
        (z : NDArray ℚ), nsub x y = .ok z →
      rmse x y axis keepdims = .ok (rms z axis keepdims)) ∧
    rmse ⟨[3], [1, 2, 3], true⟩ ⟨[3], [1, 2, 3], true⟩ none false =
      .ok ⟨[], [0], true⟩ := by
  constructor
  · intro x y axis keepdims z h
    rw [rmse, h]
    rfl
  · have h : nsub ⟨[3], [1, 2, 3], true⟩ ⟨[3], [1, 2, 3], true⟩ =
        .ok ⟨[3], [0, 0, 0], true⟩ := by
      simp [nsub, broadcastShapes, bcastRev, allIndices, List.range_succ, bget,
        NDArray.get, flatIndex]
    rw [rmse, h]
    simp [rms, npSqrtArr, npMean, npSquare, allIndices, List.range_succ,
      NDArray.get, flatIndex, NDArray.size, NDArray.ndim, Except.map]

/-- Witness for C6: a concrete subtraction feeding `rms`. -/
theorem rmse_is_rms_of_difference_witness :
    rmse ⟨[2], [4, 6], true⟩ ⟨[2], [1, 2], true⟩ none false =
      .ok (rms ⟨[2], [3, 4], true⟩ none false) :=
  rmse_is_rms_of_difference.1 _ _ none false ⟨[2], [3, 4], true⟩ (by
    simp [nsub, broadcastShapes, bcastRev, allIndices, List.range_succ, bget,
      NDArray.get, flatIndex]
    norm_num)

/-- Claim C7: for positive `n` the `rfftfreq` polyfill returns exactly
`n / 2 + 1` values, each non-negative, namely the absolute values of the
first `n / 2 + 1` entries of the signed FFT frequency axis; in
particular `rfftfreq(8, 1.0)` is the 5 values `0, 1/8, 1/4, 3/8, 1/2`. -/
theorem rfftfreq_polyfill_truncated_abs :
    (∀ (n : Nat) (d : ℚ), 0 < n →
      (rfftfreq n d).length = n / 2 + 1 ∧
      (∀ v ∈ rfftfreq n d, 0 ≤ v) ∧
      rfftfreq n d = ((fftfreq n d).take (n / 2 + 1)).map (fun v => |v|)) ∧
    rfftfreq 8 1 = [0, 1/8, 1/4, 3/8, 1/2] := by
  constructor
  · intro n d hn
    refine ⟨?_, ?_, rfl⟩
    · have hlen : (fftfreq n d).length = n := by
        simp [fftfreq]
      simp only [rfftfreq, List.length_map, List.length_take, hlen]
      omega
    · intro v hv
      simp only [rfftfreq, List.mem_map] at hv
      obtain ⟨u, _, hu⟩ := hv
      rw [← hu]
      exact abs_nonneg u
  · simp [rfftfreq, fftfreq, List.range_succ]
    norm_num

/-- Witness for C7 at `n = 8`, `d = 1`: five entries, and the first
entry is non-negative. -/
theorem rfftfreq_polyfill_truncated_abs_witness :
    (rfftfreq 8 1).length = 8 / 2 + 1 ∧ (0 : ℚ) ≤ 0 :=
  ⟨(rfftfreq_polyfill_truncated_abs.1 8 1 (by decide)).1,
   (rfftfreq_polyfill_truncated_abs.1 8 1 (by decide)).2.1 0 (by
     simp [rfftfreq, fftfreq, List.range_succ])⟩

/-- Counterexample to claim C8: `compare(a, a) == 0` fails for NaN-like
values, where `a == b`, `a > b` and `a < b` are all false, so
`compare(nan, nan)` is the null sentinel rather than 0. -/
theorem compare_reflexive_claim_cex :
    compare PyNum.nan PyNum.nan = none ∧
    compare PyNum.nan PyNum.nan ≠ some 0 := by decide

/-- Claim C8 (amended): `compare` returns 0 on equality, 1 on strictly
greater, −1 on strictly less, and the null sentinel when no relation
holds; `compare(a,b) == -compare(b,a)` whenever both are defined; and
`compare(a,a) == 0` for every self-equal (non-NaN) value, while
`compare(nan, nan)` is the null sentinel. -/
theorem compare_threeway_amended :
    (∀ a b : PyNum, a.eqb b = true → compare a b = some 0) ∧
    (∀ a b : PyNum, a.eqb b = false → a.gtb b = true → compare a b = some 1) ∧
    (∀ a b : PyNum, a.eqb b = false → a.gtb b = false → a.ltb b = true →
      compare a b = some (-1)) ∧
    (∀ a b : PyNum, a.eqb b = false → a.gtb b = false → a.ltb b = false →
      compare a b = none) ∧
    (∀ (a b : PyNum) (u v : Int), compare a b = some u → compare b a = some v →
      u = -v) ∧
    (∀ q : ℚ, compare (.num q) (.num q) = some 0) ∧
    compare PyNum.nan PyNum.nan = none := by
  refine ⟨?_, ?_, ?_, ?_, ?_, ?_, rfl⟩
  · intro a b h; simp [compare, h]
  · intro a b h1 h2; simp [compare, h1, h2]
  · intro a b h1 h2 h3; simp [compare, h1, h2, h3]
  · intro a b h1 h2 h3; simp [compare, h1, h2, h3]
  · rintro (⟨p⟩ | _) (⟨q⟩ | _) u v h1 h2 <;>
      simp [compare, PyNum.eqb, PyNum.gtb, PyNum.ltb] at h1 h2
    rcases lt_trichotomy p q with hlt | heq | hgt
    · have hne : p ≠ q := ne_of_lt hlt
      have hnl : ¬ q < p := not_lt_of_gt hlt
      simp [hne, hne.symm, hlt, hnl] at h1 h2
      omega
    · subst heq
      simp at h1 h2
      omega
    · have hne : q ≠ p := ne_of_lt hgt
      have hnl : ¬ p < q := not_lt_of_gt hgt
      simp [hne, hne.symm, hgt, hnl] at h1 h2
      omega
  · intro q; simp [compare, PyNum.eqb]

/-- Witness for C8 (amended) at concrete inputs `2` and `1`. -/
theorem compare_threeway_amended_witness :
    compare (.num 2) (.num 1) = some 1 ∧ (1 : Int) = -(-1) :=
  ⟨by decide,
   compare_threeway_amended.2.2.2.2.1 (.num 2) (.num 1) 1 (-1)
     (by decide) (by decide)⟩

end Nengo
